import Mathlib

/-!
Verification of the configuration subsystem of `wishbone-tool`
(`src/wishbone-tool/src/config.rs`), shallowly embedded in Lean.

Strings are modelled as `List Char` (the character content of a Rust `&str`);
machine integers as `Nat` with explicit `2 ^ w` bounds where overflow matters.
-/

deriving instance DecidableEq for Except

namespace Wishbone

/-- Error kinds of Rust's `std::num::ParseIntError` that can arise from
`uN::from_str_radix` on an unsigned target width. -/
inductive ParseIntError where
  | empty
  | invalidDigit
  | posOverflow
deriving DecidableEq, Repr

/-- Rust `char::to_digit(radix)`: scalar-value arithmetic on the character,
valid exactly when the resulting digit value is below the radix. -/
def charToDigit (c : Char) (radix : Nat) : Option Nat :=
  if 48 ≤ c.toNat ∧ c.toNat ≤ 57 ∧ c.toNat - 48 < radix then Option.some (c.toNat - 48)
  else if 97 ≤ c.toNat ∧ c.toNat ≤ 122 ∧ c.toNat - 97 + 10 < radix then
    Option.some (c.toNat - 97 + 10)
  else if 65 ≤ c.toNat ∧ c.toNat ≤ 90 ∧ c.toNat - 65 + 10 < radix then
    Option.some (c.toNat - 65 + 10)
  else Option.none

/-- The digit-accumulation loop of `uN::from_str_radix` for an unsigned target
of `w` bits: left to right, `InvalidDigit` on a non-digit of the radix, and
`PosOverflow` as soon as the accumulator would leave the width. -/
def radixLoop (w radix : Nat) : List Char → Nat → Except ParseIntError Nat
  | [], acc => Except.ok acc
  | c :: cs, acc =>
    match charToDigit c radix with
    | Option.none => Except.error ParseIntError.invalidDigit
    | Option.some d =>
      if acc * radix + d < 2 ^ w then radixLoop w radix cs (acc * radix + d)
      else Except.error ParseIntError.posOverflow

/-- The sign handling of `uN::from_str_radix` on an unsigned target: a single
leading `+` is skipped; a `-` is not (it is left for the digit loop, where it
fails as an invalid digit). -/
def stripPlus (s : List Char) : List Char :=
  match s with
  | c :: rest => if c = '+' then rest else s
  | [] => s

/-- Rust `uN::from_str_radix(s, radix)` for an unsigned width of `w` bits:
sign handling, then failure on an empty digit string, then the digit loop. -/
def fromStrRadix (w radix : Nat) (s : List Char) : Except ParseIntError Nat :=
  if stripPlus s = [] then Except.error ParseIntError.empty
  else radixLoop w radix (stripPlus s) 0

/-- Fuel-indexed worker for `str::trim_start_matches`: while the (nonempty)
pattern is a prefix, drop it and repeat. Fuel at least the length of the
string is always enough, since each round removes at least one character. -/
def trimStartMatchesAux (p : List Char) : Nat → List Char → List Char
  | 0, s => s
  | fuel + 1, s =>
    if p ≠ [] ∧ p.isPrefixOf s = true then trimStartMatchesAux p fuel (s.drop p.length)
    else s

/-- Rust `str::trim_start_matches(pattern)`: repeatedly removes the pattern
from the front of the string while it matches. -/
def trimStartMatches (p s : List Char) : List Char :=
  trimStartMatchesAux p s.length s

/-- `get_base` from config.rs: detect a base prefix (`0x`/`0X` hex, `0b`/`0B`
binary, a leading `0` on a string other than `"0"` octal, else decimal) and
strip it with `trim_start_matches`. -/
def get_base (value : List Char) : List Char × Nat :=
  if ['0', 'x'].isPrefixOf value = true then (trimStartMatches ['0', 'x'] value, 16)
  else if ['0', 'X'].isPrefixOf value = true then (trimStartMatches ['0', 'X'] value, 16)
  else if ['0', 'b'].isPrefixOf value = true then (trimStartMatches ['0', 'b'] value, 2)
  else if ['0', 'B'].isPrefixOf value = true then (trimStartMatches ['0', 'B'] value, 2)
  else if ['0'].isPrefixOf value = true ∧ value ≠ ['0'] then
    (trimStartMatches ['0'] value, 8)
  else (value, 10)

/-- The error type `ConfigError` from config.rs. -/
inductive ConfigError where
  | NumberParseError (text : String) (cause : ParseIntError)
  | UnknownServerKind (text : String)
  | NoOperationSpecified
deriving DecidableEq, Repr

/-- Common body of `parse_u16` and `parse_u32` from config.rs, which differ
only in the width passed to `from_str_radix`: detect the base, parse the
remaining digits, and wrap a failure in `NumberParseError` carrying the
post-stripping digit string. -/
def parseWidth (w : Nat) (value : String) : Except ConfigError Nat :=
  match fromStrRadix w (get_base value.data).2 (get_base value.data).1 with
  | Except.ok o => Except.ok o
  | Except.error e =>
    Except.error (ConfigError.NumberParseError (String.mk (get_base value.data).1) e)

/-- `parse_u16` from config.rs (`u16::from_str_radix`). -/
def parse_u16 (value : String) : Except ConfigError Nat := parseWidth 16 value

/-- `parse_u32` from config.rs (`u32::from_str_radix`). -/
def parse_u32 (value : String) : Except ConfigError Nat := parseWidth 32 value

/-- The standard base-10 interpretation of a digit string. -/
def decValue (s : List Char) : Nat :=
  s.foldl (fun a c => a * 10 + (c.toNat - 48)) 0

/-- A decimal digit (`[0-9]`). -/
def isDecDigit (c : Char) : Bool :=
  decide (48 ≤ c.toNat) && decide (c.toNat ≤ 57)

/-- The value denoted by a run of digits of the given radix, seeded with an
accumulator (invalid characters count as 0; only used on all-valid runs). -/
def foldDigits (radix : Nat) : Nat → List Char → Nat
  | acc, [] => acc
  | acc, c :: cs => foldDigits radix (acc * radix + (charToDigit c radix).getD 0) cs

/-- The bridge transport enum `BridgeKind` (USB or UART serial). -/
inductive BridgeKind where
  | UsbBridge
  | UartBridge
deriving DecidableEq, Repr

/-- Modelled from the spec: the server-kind enum lives in the external server
component, which is not part of the examined material. The spec requires a
"none" variant (no long-running operation) plus recognized operation kinds;
it does not enumerate the operation names, so representative ones are used.
The theorems below depend only on the none variant, on absence resolving to
it, and on `"bogus"` not being a recognized name. -/
inductive ServerKind where
  | GDB
  | Wishbone
  | RandomTest
  | None
deriving DecidableEq, Repr

/-- Modelled from the spec: `ServerKind::from_string` is defined in the
external server component. Per the spec it is always consulted, resolves an
absent flag to the none variant, a recognized operation name to its kind, and
fails with `UnknownServerKind` carrying the offending text otherwise. -/
def ServerKind.from_string : Option String → Except ConfigError ServerKind
  | Option.none => Except.ok ServerKind.None
  | Option.some s =>
    if s = "gdb" then Except.ok ServerKind.GDB
    else if s = "wishbone" then Except.ok ServerKind.Wishbone
    else if s = "random-test" then Except.ok ServerKind.RandomTest
    else Except.error (ConfigError.UnknownServerKind s)

/-- The argument-lookup capability consumed by `Config::parse`: each
recognized flag name resolved to an optional raw string
(`ArgMatches::value_of`). -/
structure ArgMatches where
  vid : Option String
  pid : Option String
  serial : Option String
  baud : Option String
  address : Option String
  value : Option String
  port : Option String
  bindAddr : Option String
  serverKind : Option String
  randomLoops : Option String
  randomAddress : Option String
deriving DecidableEq, Repr

/-- The `Config` struct from config.rs. -/
structure Config where
  usb_pid : Option Nat
  usb_vid : Option Nat
  memory_address : Option Nat
  memory_value : Option Nat
  server_kind : ServerKind
  bridge_kind : BridgeKind
  serial_port : Option String
  serial_baud : Option Nat
  bind_addr : String
  bind_port : Nat
  random_loops : Option Nat
  random_address : Option Nat
deriving DecidableEq, Repr

/-- The `if let Some(v) = matches.value_of(..) { Some(parse(v)?) } else { None }`
pattern used for every optional numeric flag in `Config::parse`. -/
def parseOpt (p : String → Except ConfigError Nat) :
    Option String → Except ConfigError (Option Nat)
  | Option.none => Except.ok Option.none
  | Option.some s =>
    match p s with
    | Except.ok v => Except.ok (Option.some v)
    | Except.error e => Except.error e

/-- The `port` pattern of `Config::parse`: parse when present, else the
default. -/
def parseDefault (d : Nat) : Option String → Except ConfigError Nat
  | Option.none => Except.ok d
  | Option.some s => parse_u32 s

/-- The bridge-kind derivation of `Config::parse`: the mutable `bridge_kind`
starts as `UsbBridge` and is set to `UartBridge` exactly when the `serial`
flag is present. -/
def bridgeKindOf : Option String → BridgeKind
  | Option.some _ => BridgeKind.UartBridge
  | Option.none => BridgeKind.UsbBridge

/-- The `bind-addr` pattern of `Config::parse`: the raw string when present,
else the default `"127.0.0.1"`. -/
def bindAddrOf : Option String → String
  | Option.some a => a
  | Option.none => "127.0.0.1"

/-- `Config::parse` from config.rs: extract every flag in source order,
propagating the first error (`?`), then fail with `NoOperationSpecified` if
neither a memory address nor a server operation was requested, else return
the populated `Config`. The `serial` and `bind-addr` extractions are
infallible and are inlined into the record via `bridgeKindOf`/`bindAddrOf`;
all fallible steps appear in the source's evaluation order. -/
def Config.parse (m : ArgMatches) : Except ConfigError Config :=
  match parseOpt parse_u16 m.vid with
  | Except.error e => Except.error e
  | Except.ok usb_vid =>
  match parseOpt parse_u16 m.pid with
  | Except.error e => Except.error e
  | Except.ok usb_pid =>
  match parseOpt parse_u32 m.baud with
  | Except.error e => Except.error e
  | Except.ok serial_baud =>
  match parseOpt parse_u32 m.address with
  | Except.error e => Except.error e
  | Except.ok memory_address =>
  match parseOpt parse_u32 m.value with
  | Except.error e => Except.error e
  | Except.ok memory_value =>
  match parseDefault 3333 m.port with
  | Except.error e => Except.error e
  | Except.ok bind_port =>
  match ServerKind.from_string m.serverKind with
  | Except.error e => Except.error e
  | Except.ok server_kind =>
  match parseOpt parse_u32 m.randomLoops with
  | Except.error e => Except.error e
  | Except.ok random_loops =>
  match parseOpt parse_u32 m.randomAddress with
  | Except.error e => Except.error e
  | Except.ok random_address =>
  if memory_address = Option.none ∧ server_kind = ServerKind.None then
    Except.error ConfigError.NoOperationSpecified
  else
    Except.ok
      { usb_pid, usb_vid,
        serial_port := m.serial,
        serial_baud, memory_address, memory_value, server_kind,
        bridge_kind := bridgeKindOf m.serial,
        bind_port,
        bind_addr := bindAddrOf m.bindAddr,
        random_loops, random_address }

/-- The fallible extraction steps of `Config::parse`, listed in the source's
evaluation order, with their values discarded. -/
def extractionSteps (m : ArgMatches) : List (Except ConfigError Unit) :=
  [(parseOpt parse_u16 m.vid).map fun _ => (),
   (parseOpt parse_u16 m.pid).map fun _ => (),
   (parseOpt parse_u32 m.baud).map fun _ => (),
   (parseOpt parse_u32 m.address).map fun _ => (),
   (parseOpt parse_u32 m.value).map fun _ => (),
   (parseDefault 3333 m.port).map fun _ => (),
   (ServerKind.from_string m.serverKind).map fun _ => (),
   (parseOpt parse_u32 m.randomLoops).map fun _ => (),
   (parseOpt parse_u32 m.randomAddress).map fun _ => ()]

/-- The first error among a list of step results, if any. -/
def firstError : List (Except ConfigError Unit) → Option ConfigError
  | [] => Option.none
  | Except.error e :: _ => Option.some e
  | Except.ok _ :: rest => firstError rest

/-- Seeding the digit fold with a larger accumulator yields a larger value;
in particular the accumulator never decreases along the loop. -/
theorem le_foldDigits (radix : Nat) (h1 : 1 ≤ radix) :
    ∀ (cs : List Char) (acc : Nat), acc ≤ foldDigits radix acc cs := by
  intro cs
  induction cs with
  | nil => intro acc; simp [foldDigits]
  | cons c cs ih =>
    intro acc
    have h2 : acc ≤ acc * radix + (charToDigit c radix).getD 0 :=
      Nat.le_trans (Nat.le_mul_of_pos_right acc h1) (Nat.le_add_right _ _)
    calc acc ≤ acc * radix + (charToDigit c radix).getD 0 := h2
      _ ≤ foldDigits radix (acc * radix + (charToDigit c radix).getD 0) cs := ih _
      _ = foldDigits radix acc (c :: cs) := by rw [foldDigits]

/-- On a run of valid digits whose value stays below the width, the digit
loop succeeds with that value. -/
theorem radixLoop_ok (w radix : Nat) (h1 : 1 ≤ radix) :
    ∀ (cs : List Char) (acc : Nat),
      (∀ c ∈ cs, (charToDigit c radix).isSome = true) →
      foldDigits radix acc cs < 2 ^ w →
      radixLoop w radix cs acc = Except.ok (foldDigits radix acc cs) := by
  intro cs
  induction cs with
  | nil => intro acc _ _; rfl
  | cons c cs ih =>
    intro acc hd hb
    obtain ⟨d, hcd⟩ := Option.isSome_iff_exists.mp (hd c (by simp))
    have hfold : foldDigits radix acc (c :: cs) = foldDigits radix (acc * radix + d) cs := by
      rw [foldDigits, hcd]; rfl
    rw [hfold] at hb
    have hlt : acc * radix + d < 2 ^ w :=
      Nat.lt_of_le_of_lt (le_foldDigits radix h1 cs (acc * radix + d)) hb
    rw [radixLoop, hcd]
    simp only [if_pos hlt]
    rw [hfold]
    exact ih (acc * radix + d) (fun x hx => hd x (by simp [hx])) hb

/-- On a run of valid digits whose value reaches the width bound, the digit
loop fails with a positive overflow. -/
theorem radixLoop_overflow (w radix : Nat) :
    ∀ (cs : List Char) (acc : Nat),
      (∀ c ∈ cs, (charToDigit c radix).isSome = true) →
      acc < 2 ^ w → 2 ^ w ≤ foldDigits radix acc cs →
      radixLoop w radix cs acc = Except.error ParseIntError.posOverflow := by
  intro cs
  induction cs with
  | nil =>
    intro acc _ hacc hb
    exact absurd hb (by rw [foldDigits]; omega)
  | cons c cs ih =>
    intro acc hd hacc hb
    obtain ⟨d, hcd⟩ := Option.isSome_iff_exists.mp (hd c (by simp))
    have hfold : foldDigits radix acc (c :: cs) = foldDigits radix (acc * radix + d) cs := by
      rw [foldDigits, hcd]; rfl
    rw [hfold] at hb
    rw [radixLoop, hcd]
    by_cases hlt : acc * radix + d < 2 ^ w
    · simp only [if_pos hlt]
      exact ih (acc * radix + d) (fun x hx => hd x (by simp [hx])) hlt hb
    · simp only [if_neg hlt]

/-- A run containing an invalid digit makes the loop fail. -/
theorem radixLoop_invalid (w radix : Nat) :
    ∀ (cs : List Char) (acc : Nat),
      (∃ c ∈ cs, charToDigit c radix = Option.none) →
      ∃ e, radixLoop w radix cs acc = Except.error e := by
  intro cs
  induction cs with
  | nil => intro acc h; simp at h
  | cons c cs ih =>
    intro acc h
    rw [radixLoop]
    cases hcd : charToDigit c radix with
    | none => exact ⟨ParseIntError.invalidDigit, rfl⟩
    | some d =>
      have hcs : ∃ x ∈ cs, charToDigit x radix = Option.none := by
        rcases h with ⟨x, hx, hnone⟩
        rcases List.mem_cons.mp hx with rfl | hx'
        · rw [hcd] at hnone; cases hnone
        · exact ⟨x, hx', hnone⟩
      by_cases hlt : acc * radix + d < 2 ^ w
      · simp only [if_pos hlt]
        exact ih (acc * radix + d) hcs
      · simp only [if_neg hlt]
        exact ⟨ParseIntError.posOverflow, rfl⟩

/-- The digit loop fails exactly on an invalid digit or a value at or above
the width bound. -/
theorem radixLoop_error_iff (w radix : Nat) (h1 : 1 ≤ radix) (cs : List Char) (acc : Nat)
    (hacc : acc < 2 ^ w) :
    (∃ e, radixLoop w radix cs acc = Except.error e) ↔
      ((∃ c ∈ cs, charToDigit c radix = Option.none) ∨ 2 ^ w ≤ foldDigits radix acc cs) := by
  constructor
  · rintro ⟨e, he⟩
    by_contra hcon
    push_neg at hcon
    obtain ⟨hv, hb⟩ := hcon
    have hvs : ∀ c ∈ cs, (charToDigit c radix).isSome = true := fun c hc =>
      Option.isSome_iff_ne_none.mpr (hv c hc)
    rw [radixLoop_ok w radix h1 cs acc hvs hb] at he
    cases he
  · rintro (hex | hov)
    · exact radixLoop_invalid w radix cs acc hex
    · by_cases hex' : ∃ c ∈ cs, charToDigit c radix = Option.none
      · exact radixLoop_invalid w radix cs acc hex'
      · push_neg at hex'
        have hvs : ∀ c ∈ cs, (charToDigit c radix).isSome = true := fun c hc =>
          Option.isSome_iff_ne_none.mpr (hex' c hc)
        exact ⟨ParseIntError.posOverflow, radixLoop_overflow w radix cs acc hvs hacc hov⟩

/-- `from_str_radix` fails exactly when, after the optional leading `+`, the
digit string is empty, contains an invalid digit, or denotes a value at or
above the width bound. -/
theorem fromStrRadix_error_iff (w radix : Nat) (h1 : 1 ≤ radix) (s : List Char) :
    (∃ e, fromStrRadix w radix s = Except.error e) ↔
      (stripPlus s = [] ∨ (∃ c ∈ stripPlus s, charToDigit c radix = Option.none) ∨
        2 ^ w ≤ foldDigits radix 0 (stripPlus s)) := by
  unfold fromStrRadix
  by_cases hd : stripPlus s = []
  · simp [hd]
  · rw [if_neg hd]
    rw [radixLoop_error_iff w radix h1 (stripPlus s) 0 (Nat.two_pow_pos w)]
    simp [hd]

/-- On a nonempty run of valid digits below the width bound, `from_str_radix`
succeeds with the denoted value. -/
theorem fromStrRadix_ok (w radix : Nat) (h1 : 1 ≤ radix) (s : List Char)
    (hne : stripPlus s ≠ [])
    (hv : ∀ c ∈ stripPlus s, (charToDigit c radix).isSome = true)
    (hb : foldDigits radix 0 (stripPlus s) < 2 ^ w) :
    fromStrRadix w radix s = Except.ok (foldDigits radix 0 (stripPlus s)) := by
  unfold fromStrRadix
  rw [if_neg hne]
  exact radixLoop_ok w radix h1 (stripPlus s) 0 hv hb

/-- Every base detected by `get_base` is positive (it is 2, 8, 10 or 16). -/
theorem get_base_radix_pos (v : List Char) : 1 ≤ (get_base v).2 := by
  unfold get_base
  split_ifs <;> norm_num

/-- The spec's failure condition for the numeric literal parsers, adjusted
for the sign handling of the underlying radix parse: after base detection and
the optional leading `+`, the digit string is empty, contains a character
invalid for the detected base, or denotes a value that overflows `w` bits. -/
def specErrorCondition (w : Nat) (s : String) : Prop :=
  stripPlus (get_base s.data).1 = [] ∨
  (∃ c ∈ stripPlus (get_base s.data).1, charToDigit c (get_base s.data).2 = Option.none) ∨
  2 ^ w ≤ foldDigits (get_base s.data).2 0 (stripPlus (get_base s.data).1)

/-- The width-`w` literal parser fails exactly on the spec's (sign-adjusted)
failure condition. -/
theorem parseWidth_error_iff (w : Nat) (s : String) :
    (∃ e, parseWidth w s = Except.error e) ↔ specErrorCondition w s := by
  have hpos := get_base_radix_pos s.data
  constructor
  · rintro ⟨e, he⟩
    unfold parseWidth at he
    cases hfs : fromStrRadix w (get_base s.data).2 (get_base s.data).1 with
    | ok o => rw [hfs] at he; cases he
    | error k =>
      exact (fromStrRadix_error_iff w (get_base s.data).2 hpos (get_base s.data).1).mp ⟨k, hfs⟩
  · intro hc
    obtain ⟨k, hk⟩ :=
      (fromStrRadix_error_iff w (get_base s.data).2 hpos (get_base s.data).1).mpr hc
    refine ⟨ConfigError.NumberParseError (String.mk (get_base s.data).1) k, ?_⟩
    unfold parseWidth
    rw [hk]

/-- Every failure of the width-`w` literal parser is a `NumberParseError`
carrying the post-stripping digit string and the underlying failure reason. -/
theorem parseWidth_error_form (w : Nat) (s : String) (e : ConfigError)
    (h : parseWidth w s = Except.error e) :
    ∃ k, e = ConfigError.NumberParseError (String.mk (get_base s.data).1) k := by
  unfold parseWidth at h
  cases hfs : fromStrRadix w (get_base s.data).2 (get_base s.data).1 with
  | ok o => rw [hfs] at h; cases h
  | error k =>
    rw [hfs] at h
    exact ⟨k, (Except.error.injEq _ _ ▸ congrArg id h).symm ▸ by cases h; rfl⟩

/-- Away from the spec's failure condition the width-`w` literal parser
succeeds. -/
theorem parseWidth_isOk (w : Nat) (s : String) (h : ¬ specErrorCondition w s) :
    ∃ v, parseWidth w s = Except.ok v := by
  cases hp : parseWidth w s with
  | ok v => exact ⟨v, rfl⟩
  | error e => exact absurd ((parseWidth_error_iff w s).mp ⟨e, hp⟩) h

/-- The trim worker removes some number of copies of the (nonempty) pattern
and leaves a remainder the pattern no longer starts. -/
theorem trimAux_spec (p : List Char) (hp : p ≠ []) :
    ∀ (fuel : Nat) (s : List Char), s.length ≤ fuel →
      ∃ n, s = (List.replicate n p).flatten ++ trimStartMatchesAux p fuel s ∧
        p.isPrefixOf (trimStartMatchesAux p fuel s) = false := by
  intro fuel
  induction fuel with
  | zero =>
    intro s hs
    have hnil : s = [] := List.eq_nil_of_length_eq_zero (Nat.le_zero.mp hs)
    subst hnil
    refine ⟨0, by simp [trimStartMatchesAux], ?_⟩
    cases p with
    | nil => exact absurd rfl hp
    | cons a as => rfl
  | succ fuel ih =>
    intro s hs
    by_cases hpre : p.isPrefixOf s = true
    · obtain ⟨t, ht⟩ := List.isPrefixOf_iff_prefix.mp hpre
      have hdrop : s.drop p.length = t := by rw [← ht]; exact List.drop_left p t
      have hplen : 1 ≤ p.length := List.length_pos.mpr hp
      have hlen : t.length ≤ fuel := by
        have : s.length = p.length + t.length := by rw [← ht, List.length_append]
        omega
      have hstep : trimStartMatchesAux p (fuel + 1) s = trimStartMatchesAux p fuel t := by
        rw [trimStartMatchesAux, if_pos ⟨hp, hpre⟩, hdrop]
      obtain ⟨n, h1, h2⟩ := ih t hlen
      refine ⟨n + 1, ?_, by rw [hstep]; exact h2⟩
      rw [hstep, ← ht, List.replicate_succ, List.flatten_cons, List.append_assoc, ← h1]
    · have hstop : trimStartMatchesAux p (fuel + 1) s = s := by
        rw [trimStartMatchesAux, if_neg (fun hc => hpre hc.2)]
      refine ⟨0, by simp [hstop], ?_⟩
      rw [hstop]
      exact eq_false_of_ne_true hpre

/-- When the (nonempty) pattern starts the string, `trim_start_matches`
removes at least one and then every further leading copy of it. -/
theorem trim_repeats (p s : List Char) (hp : p ≠ []) (hs : p.isPrefixOf s = true) :
    ∃ n r, 1 ≤ n ∧ s = (List.replicate n p).flatten ++ r ∧ p.isPrefixOf r = false ∧
      trimStartMatches p s = r := by
  obtain ⟨n, h1, h2⟩ := trimAux_spec p hp s.length s le_rfl
  refine ⟨n, trimStartMatchesAux p s.length s, ?_, h1, h2, rfl⟩
  rcases n with _ | n
  · exfalso
    simp only [List.replicate_zero, List.flatten_nil, List.nil_append] at h1
    rw [← h1] at h2
    rw [hs] at h2
    cases h2
  · omega

/-- Trimming a single-character pattern is `dropWhile` of that character. -/
theorem trimAux_single (a : Char) :
    ∀ (fuel : Nat) (s : List Char), s.length ≤ fuel →
      trimStartMatchesAux [a] fuel s = s.dropWhile (fun c => c == a) := by
  intro fuel
  induction fuel with
  | zero =>
    intro s hs
    have hnil : s = [] := List.eq_nil_of_length_eq_zero (Nat.le_zero.mp hs)
    subst hnil
    rfl
  | succ fuel ih =>
    intro s hs
    cases s with
    | nil => rfl
    | cons c t =>
      by_cases hc : c = a
      · subst hc
        have hpre : [c].isPrefixOf (c :: t) = true := by simp [List.isPrefixOf]
        rw [trimStartMatchesAux, if_pos ⟨by simp, hpre⟩]
        have : (c :: t).drop [c].length = t := rfl
        rw [this, ih t (by simpa using Nat.le_of_succ_le_succ hs)]
        simp [List.dropWhile]
      · have hpre : [a].isPrefixOf (c :: t) = false := by
          simp [List.isPrefixOf, beq_eq_false_iff_ne.mpr (Ne.symm hc)]
        rw [trimStartMatchesAux, if_neg (fun hcon => by rw [hpre] at hcon; cases hcon.2)]
        rw [List.dropWhile_cons_of_neg (by simpa using hc)]

/-- With the result of every fallible extraction step given, `Config::parse`
reduces to the final validation. -/
theorem parse_steps (m : ArgMatches) (vid pid baud addr val : Option Nat) (bport : Nat)
    (sk : ServerKind) (rl ra : Option Nat)
    (h1 : parseOpt parse_u16 m.vid = Except.ok vid)
    (h2 : parseOpt parse_u16 m.pid = Except.ok pid)
    (h3 : parseOpt parse_u32 m.baud = Except.ok baud)
    (h4 : parseOpt parse_u32 m.address = Except.ok addr)
    (h5 : parseOpt parse_u32 m.value = Except.ok val)
    (h6 : parseDefault 3333 m.port = Except.ok bport)
    (h7 : ServerKind.from_string m.serverKind = Except.ok sk)
    (h8 : parseOpt parse_u32 m.randomLoops = Except.ok rl)
    (h9 : parseOpt parse_u32 m.randomAddress = Except.ok ra) :
    Config.parse m =
      if addr = Option.none ∧ sk = ServerKind.None then
        Except.error ConfigError.NoOperationSpecified
      else
        Except.ok
          { usb_pid := pid, usb_vid := vid, serial_port := m.serial, serial_baud := baud,
            memory_address := addr, memory_value := val, server_kind := sk,
            bridge_kind := bridgeKindOf m.serial, bind_port := bport,
            bind_addr := bindAddrOf m.bindAddr, random_loops := rl,
            random_address := ra } := by
  unfold Config.parse
  rw [h1, h2, h3, h4, h5, h6, h7, h8, h9]

/-- Inversion for a successful `Config::parse`: every extraction step
succeeded, the validation passed, and the configuration is the record built
from the step results. -/
theorem parse_ok_inv (m : ArgMatches) (cfg : Config) (h : Config.parse m = Except.ok cfg) :
    ∃ vid pid baud addr val bport sk rl ra,
      parseOpt parse_u16 m.vid = Except.ok vid ∧
      parseOpt parse_u16 m.pid = Except.ok pid ∧
      parseOpt parse_u32 m.baud = Except.ok baud ∧
      parseOpt parse_u32 m.address = Except.ok addr ∧
      parseOpt parse_u32 m.value = Except.ok val ∧
      parseDefault 3333 m.port = Except.ok bport ∧
      ServerKind.from_string m.serverKind = Except.ok sk ∧
      parseOpt parse_u32 m.randomLoops = Except.ok rl ∧
      parseOpt parse_u32 m.randomAddress = Except.ok ra ∧
      ¬(addr = Option.none ∧ sk = ServerKind.None) ∧
      cfg = { usb_pid := pid, usb_vid := vid, serial_port := m.serial, serial_baud := baud,
              memory_address := addr, memory_value := val, server_kind := sk,
              bridge_kind := bridgeKindOf m.serial, bind_port := bport,
              bind_addr := bindAddrOf m.bindAddr, random_loops := rl,
              random_address := ra } := by
  obtain ⟨vid, h1⟩ : ∃ x, parseOpt parse_u16 m.vid = Except.ok x := by
    cases hx : parseOpt parse_u16 m.vid with
    | ok v => exact ⟨v, rfl⟩
    | error e => unfold Config.parse at h; rw [hx] at h; cases h
  obtain ⟨pid, h2⟩ : ∃ x, parseOpt parse_u16 m.pid = Except.ok x := by
    cases hx : parseOpt parse_u16 m.pid with
    | ok v => exact ⟨v, rfl⟩
    | error e => unfold Config.parse at h; rw [h1, hx] at h; cases h
  obtain ⟨baud, h3⟩ : ∃ x, parseOpt parse_u32 m.baud = Except.ok x := by
    cases hx : parseOpt parse_u32 m.baud with
    | ok v => exact ⟨v, rfl⟩
    | error e => unfold Config.parse at h; rw [h1, h2, hx] at h; cases h
  obtain ⟨addr, h4⟩ : ∃ x, parseOpt parse_u32 m.address = Except.ok x := by
    cases hx : parseOpt parse_u32 m.address with
    | ok v => exact ⟨v, rfl⟩
    | error e => unfold Config.parse at h; rw [h1, h2, h3, hx] at h; cases h
  obtain ⟨val, h5⟩ : ∃ x, parseOpt parse_u32 m.value = Except.ok x := by
    cases hx : parseOpt parse_u32 m.value with
    | ok v => exact ⟨v, rfl⟩
    | error e => unfold Config.parse at h; rw [h1, h2, h3, h4, hx] at h; cases h
  obtain ⟨bport, h6⟩ : ∃ x, parseDefault 3333 m.port = Except.ok x := by
    cases hx : parseDefault 3333 m.port with
    | ok v => exact ⟨v, rfl⟩
    | error e => unfold Config.parse at h; rw [h1, h2, h3, h4, h5, hx] at h; cases h
  obtain ⟨sk, h7⟩ : ∃ x, ServerKind.from_string m.serverKind = Except.ok x := by
    cases hx : ServerKind.from_string m.serverKind with
    | ok v => exact ⟨v, rfl⟩
    | error e => unfold Config.parse at h; rw [h1, h2, h3, h4, h5, h6, hx] at h; cases h
  obtain ⟨rl, h8⟩ : ∃ x, parseOpt parse_u32 m.randomLoops = Except.ok x := by
    cases hx : parseOpt parse_u32 m.randomLoops with
    | ok v => exact ⟨v, rfl⟩
    | error e => unfold Config.parse at h; rw [h1, h2, h3, h4, h5, h6, h7, hx] at h; cases h
  obtain ⟨ra, h9⟩ : ∃ x, parseOpt parse_u32 m.randomAddress = Except.ok x := by
    cases hx : parseOpt parse_u32 m.randomAddress with
    | ok v => exact ⟨v, rfl⟩
    | error e =>
      unfold Config.parse at h
      rw [h1, h2, h3, h4, h5, h6, h7, h8, hx] at h
      cases h
  have hall := parse_steps m vid pid baud addr val bport sk rl ra h1 h2 h3 h4 h5 h6 h7 h8 h9
  rw [hall] at h
  split_ifs at h with hc
  exact ⟨vid, pid, baud, addr, val, bport, sk, rl, ra,
    h1, h2, h3, h4, h5, h6, h7, h8, h9, hc, (Except.ok.inj h).symm⟩

/-- A successful optional-flag extraction yields no value exactly when the
flag was absent. -/
theorem parseOpt_none_iff (p : String → Except ConfigError Nat) (o : Option String)
    (x : Option Nat) (h : parseOpt p o = Except.ok x) :
    (x = Option.none ↔ o = Option.none) := by
  cases o with
  | none =>
    simp only [parseOpt] at h
    simp [← Except.ok.inj h]
  | some s =>
    simp only [parseOpt] at h
    cases hp : p s with
    | ok v => rw [hp] at h; simp [← Except.ok.inj h]
    | error e => rw [hp] at h; cases h

/-- A decimal digit converts under radix 10 to its place value. -/
theorem charToDigit_dec (c : Char) (h : isDecDigit c = true) :
    charToDigit c 10 = Option.some (c.toNat - 48) := by
  simp only [isDecDigit, Bool.and_eq_true, decide_eq_true_eq] at h
  unfold charToDigit
  rw [if_pos ⟨h.1, h.2, by omega⟩]

/-- On decimal digit runs, the radix-10 fold is the standard base-10 fold. -/
theorem foldDigits_decimal (s : List Char) :
    ∀ acc, (∀ c ∈ s, isDecDigit c = true) →
      foldDigits 10 acc s = s.foldl (fun a c => a * 10 + (c.toNat - 48)) acc := by
  induction s with
  | nil => intro acc _; rfl
  | cons c t ih =>
    intro acc hd
    rw [foldDigits, charToDigit_dec c (hd c (by simp)), Option.getD_some, List.foldl_cons]
    exact ih _ (fun x hx => hd x (by simp [hx]))

/-- A string headed by a decimal digit has no sign to strip. -/
theorem stripPlus_of_head_digit (c : Char) (t : List Char) (h : isDecDigit c = true) :
    stripPlus (c :: t) = c :: t := by
  have hc : c ≠ '+' := by
    intro hcon
    subst hcon
    exact absurd h (by decide)
  simp [stripPlus, hc]

/-- `get_base` detects no prefix on a nonempty decimal string with no leading
zero (or on exactly `"0"`): the digits pass through unchanged, base 10. -/
theorem get_base_decimal (s : List Char) (hne : s ≠ [])
    (hd : ∀ c ∈ s, isDecDigit c = true)
    (hlead : s.head? ≠ Option.some '0' ∨ s = ['0']) :
    get_base s = (s, 10) := by
  rcases hlead with hh | rfl
  · cases s with
    | nil => exact absurd rfl hne
    | cons c t =>
      have hc0 : c ≠ '0' := by
        intro hc
        subst hc
        exact hh rfl
      have hbeq : ('0' == c) = false := beq_eq_false_iff_ne.mpr (Ne.symm hc0)
      simp [get_base, List.isPrefixOf, hbeq]
  · decide

/-- C1 (amended): on every decimal string matching `^[0-9]+$` with no leading
zero (or exactly `"0"`) whose base-10 value fits in 32 bits, `parse_u32`
returns `Ok` of the standard base-10 interpretation. -/
theorem C1_decimal_parse (s : List Char) (hne : s ≠ [])
    (hdig : ∀ c ∈ s, isDecDigit c = true)
    (hlead : s.head? ≠ Option.some '0' ∨ s = ['0'])
    (hbound : decValue s < 2 ^ 32) :
    parse_u32 (String.mk s) = Except.ok (decValue s) := by
  have hgb : get_base s = (s, 10) := get_base_decimal s hne hdig hlead
  have hsp : stripPlus s = s := by
    cases s with
    | nil => exact absurd rfl hne
    | cons c t => exact stripPlus_of_head_digit c t (hdig c (by simp))
  have hvalid : ∀ c ∈ stripPlus s, (charToDigit c 10).isSome = true := by
    rw [hsp]
    intro c hc
    rw [charToDigit_dec c (hdig c hc)]
    rfl
  have hfold : foldDigits 10 0 (stripPlus s) = decValue s := by
    rw [hsp]
    exact foldDigits_decimal s 0 hdig
  have hne' : stripPlus s ≠ [] := by rw [hsp]; exact hne
  have hok := fromStrRadix_ok 32 10 (by norm_num) s hne' hvalid (by rw [hfold]; exact hbound)
  unfold parse_u32 parseWidth
  rw [show (String.mk s).data = s from rfl, hgb]
  show (match fromStrRadix 32 10 s with
    | Except.ok o => (Except.ok o : Except ConfigError Nat)
    | Except.error e => Except.error (ConfigError.NumberParseError (String.mk s) e)) =
    Except.ok (decValue s)
  rw [hok, hfold]

/-- C1 witness: the amended theorem applied at the string `"37"`. -/
theorem C1_decimal_parse_witness :
    parse_u32 (String.mk ['3', '7']) = Except.ok (decValue ['3', '7']) :=
  C1_decimal_parse ['3', '7'] (by decide) (by decide) (by decide) (by decide)

/-- C1 counterexample: `"4294967296"` matches `^[0-9]+$` with no leading
zero, yet `parse_u32` fails with a positive overflow instead of returning its
base-10 interpretation. -/
theorem C1_overflow_counterexample :
    ("4294967296".data ≠ [] ∧ "4294967296".data.all isDecDigit = true ∧
      "4294967296".data.head? ≠ Option.some '0') ∧
    parse_u32 "4294967296" =
      Except.error (ConfigError.NumberParseError "4294967296" ParseIntError.posOverflow) := by
  decide

/-- C2 (amended): on a string starting with `0x`/`0X` (resp. `0b`/`0B`),
`get_base` selects base 16 (resp. 2) and removes every leading repetition of
the matched two-character prefix — at least one, and as many as occur — so
the remainder no longer starts with it. -/
theorem C2_prefix_strip (s : List Char) :
    (['0', 'x'].isPrefixOf s = true →
      ∃ n r, 1 ≤ n ∧ s = (List.replicate n ['0', 'x']).flatten ++ r ∧
        ['0', 'x'].isPrefixOf r = false ∧ get_base s = (r, 16)) ∧
    (['0', 'X'].isPrefixOf s = true →
      ∃ n r, 1 ≤ n ∧ s = (List.replicate n ['0', 'X']).flatten ++ r ∧
        ['0', 'X'].isPrefixOf r = false ∧ get_base s = (r, 16)) ∧
    (['0', 'b'].isPrefixOf s = true →
      ∃ n r, 1 ≤ n ∧ s = (List.replicate n ['0', 'b']).flatten ++ r ∧
        ['0', 'b'].isPrefixOf r = false ∧ get_base s = (r, 2)) ∧
    (['0', 'B'].isPrefixOf s = true →
      ∃ n r, 1 ≤ n ∧ s = (List.replicate n ['0', 'B']).flatten ++ r ∧
        ['0', 'B'].isPrefixOf r = false ∧ get_base s = (r, 2)) := by
  have hxX : (('x' : Char) == 'X') = false := by decide
  have hxb : (('x' : Char) == 'b') = false := by decide
  have hXb : (('X' : Char) == 'b') = false := by decide
  have hxB : (('x' : Char) == 'B') = false := by decide
  have hXB : (('X' : Char) == 'B') = false := by decide
  have hbB : (('b' : Char) == 'B') = false := by decide
  refine ⟨?_, ?_, ?_, ?_⟩
  · intro hs
    obtain ⟨n, r, hn, hrep, hnp, htrim⟩ := trim_repeats ['0', 'x'] s (by decide) hs
    refine ⟨n, r, hn, hrep, hnp, ?_⟩
    unfold get_base
    rw [if_pos hs, htrim]
  · intro hs
    obtain ⟨t, ht⟩ := List.isPrefixOf_iff_prefix.mp hs
    obtain ⟨n, r, hn, hrep, hnp, htrim⟩ := trim_repeats ['0', 'X'] s (by decide) hs
    refine ⟨n, r, hn, hrep, hnp, ?_⟩
    have h1 : ['0', 'x'].isPrefixOf s = false := by
      rw [← ht]
      simp [List.isPrefixOf, hxX]
    unfold get_base
    rw [if_neg (by simp [h1]), if_pos hs, htrim]
  · intro hs
    obtain ⟨t, ht⟩ := List.isPrefixOf_iff_prefix.mp hs
    obtain ⟨n, r, hn, hrep, hnp, htrim⟩ := trim_repeats ['0', 'b'] s (by decide) hs
    refine ⟨n, r, hn, hrep, hnp, ?_⟩
    have h1 : ['0', 'x'].isPrefixOf s = false := by
      rw [← ht]
      simp [List.isPrefixOf, hxb]
    have h2 : ['0', 'X'].isPrefixOf s = false := by
      rw [← ht]
      simp [List.isPrefixOf, hXb]
    unfold get_base
    rw [if_neg (by simp [h1]), if_neg (by simp [h2]), if_pos hs, htrim]
  · intro hs
    obtain ⟨t, ht⟩ := List.isPrefixOf_iff_prefix.mp hs
    obtain ⟨n, r, hn, hrep, hnp, htrim⟩ := trim_repeats ['0', 'B'] s (by decide) hs
    refine ⟨n, r, hn, hrep, hnp, ?_⟩
    have h1 : ['0', 'x'].isPrefixOf s = false := by
      rw [← ht]
      simp [List.isPrefixOf, hxB]
    have h2 : ['0', 'X'].isPrefixOf s = false := by
      rw [← ht]
      simp [List.isPrefixOf, hXB]
    have h3 : ['0', 'b'].isPrefixOf s = false := by
      rw [← ht]
      simp [List.isPrefixOf, hbB]
    unfold get_base
    rw [if_neg (by simp [h1]), if_neg (by simp [h2]), if_neg (by simp [h3]), if_pos hs, htrim]

/-- C2 witness: the amended theorem's hex clause applied at `"0x0x1A"`. -/
theorem C2_prefix_strip_witness :
    ∃ n r, 1 ≤ n ∧ "0x0x1A".data = (List.replicate n ['0', 'x']).flatten ++ r ∧
      ['0', 'x'].isPrefixOf r = false ∧ get_base "0x0x1A".data = (r, 16) :=
  (C2_prefix_strip "0x0x1A".data).1 (by decide)

/-- C2 counterexample: `"0x0x1A"` starts with `0x`, but `get_base` does not
return the string with a single two-character prefix occurrence removed — it
removes both leading `0x` occurrences. -/
theorem C2_single_strip_counterexample :
    ['0', 'x'].isPrefixOf "0x0x1A".data = true ∧
    get_base "0x0x1A".data ≠ ("0x0x1A".data.drop 2, 16) ∧
    get_base "0x0x1A".data = (['1', 'A'], 16) := by
  decide

/-- `get_base` on a string that starts with `0`, is not exactly `"0"`, and
carries no hex/binary prefix: all leading zeros are stripped; base 8. -/
theorem get_base_octal (s : List Char) (hh : s.head? = Option.some '0') (hs : s ≠ ['0'])
    (hx : ['0', 'x'].isPrefixOf s = false) (hX : ['0', 'X'].isPrefixOf s = false)
    (hb : ['0', 'b'].isPrefixOf s = false) (hB : ['0', 'B'].isPrefixOf s = false) :
    get_base s = (s.dropWhile (fun c => c == '0'), 8) := by
  have hpre : ['0'].isPrefixOf s = true := by
    cases s with
    | nil => cases hh
    | cons c t =>
      have hc : c = '0' := by simpa using hh
      subst hc
      simp [List.isPrefixOf]
  unfold get_base
  rw [if_neg (by simp [hx]), if_neg (by simp [hX]), if_neg (by simp [hb]),
    if_neg (by simp [hB]), if_pos ⟨hpre, hs⟩]
  unfold trimStartMatches
  rw [trimAux_single '0' s.length s le_rfl]

/-- C3: the octal rule — a string starting with `0` that is neither `"0"` nor
hex/binary-prefixed has all leading zeros stripped and parses in base 8
(`parse_u32 "010" = 8`); `"0"` itself goes through base 10 with value 0; and
any string of two or more zeros strips to an empty digit string and fails
with a `NumberParseError` rather than returning 0. -/
theorem C3_octal_rule :
    (∀ s : List Char, s.head? = Option.some '0' → s ≠ ['0'] →
      ['0', 'x'].isPrefixOf s = false → ['0', 'X'].isPrefixOf s = false →
      ['0', 'b'].isPrefixOf s = false → ['0', 'B'].isPrefixOf s = false →
      get_base s = (s.dropWhile (fun c => c == '0'), 8)) ∧
    parse_u32 "010" = Except.ok 8 ∧
    get_base "0".data = ("0".data, 10) ∧
    parse_u32 "0" = Except.ok 0 ∧
    (∀ n, 2 ≤ n → parse_u32 (String.mk (List.replicate n '0')) =
      Except.error (ConfigError.NumberParseError "" ParseIntError.empty)) := by
  refine ⟨get_base_octal, by decide, by decide, by decide, ?_⟩
  intro n hn
  obtain ⟨m, rfl⟩ : ∃ m, n = m + 2 := ⟨n - 2, by omega⟩
  have hcons : List.replicate (m + 2) '0' = '0' :: '0' :: List.replicate m '0' := by
    rw [List.replicate_succ, List.replicate_succ]
  have hall0 : ∀ x ∈ List.replicate (m + 2) '0', (fun c => c == '0') x = true := by
    intro x hx
    have : x = '0' := List.eq_of_mem_replicate hx
    simp [this]
  have hdrop : (List.replicate (m + 2) '0').dropWhile (fun c => c == '0') = [] :=
    List.dropWhile_eq_nil_iff.mpr hall0
  have hgb : get_base (List.replicate (m + 2) '0') = ([], 8) := by
    rw [get_base_octal (List.replicate (m + 2) '0')
      (by rw [hcons]; rfl)
      (by rw [hcons]; simp)
      (by rw [hcons]; simp [List.isPrefixOf])
      (by rw [hcons]; simp [List.isPrefixOf])
      (by rw [hcons]; simp [List.isPrefixOf])
      (by rw [hcons]; simp [List.isPrefixOf]), hdrop]
  unfold parse_u32 parseWidth
  rw [show (String.mk (List.replicate (m + 2) '0')).data = List.replicate (m + 2) '0' from rfl,
    hgb]
  rfl

/-- C3 witness: the octal clause applied at `"0007"` and the all-zeros clause
applied at `"00"`. -/
theorem C3_octal_rule_witness :
    get_base "0007".data = ("0007".data.dropWhile (fun c => c == '0'), 8) ∧
    parse_u32 (String.mk (List.replicate 2 '0')) =
      Except.error (ConfigError.NumberParseError "" ParseIntError.empty) :=
  ⟨C3_octal_rule.1 "0007".data (by decide) (by decide) (by decide) (by decide) (by decide)
      (by decide),
    C3_octal_rule.2.2.2.2 2 (by decide)⟩

/-- C4 (amended): `parse_u16` / `parse_u32` fail exactly when the
post-stripping digit string, after the optional leading `+` permitted by the
underlying radix parse, is empty, contains a character invalid for the
detected base, or denotes a value overflowing 16 (resp. 32) bits; every
failure is a `NumberParseError` carrying the post-stripping digit string and
the underlying reason, and all other inputs parse successfully. -/
theorem C4_error_characterization (s : String) :
    ((∃ e, parse_u16 s = Except.error e) ↔ specErrorCondition 16 s) ∧
    (∀ e, parse_u16 s = Except.error e →
      ∃ k, e = ConfigError.NumberParseError (String.mk (get_base s.data).1) k) ∧
    (¬ specErrorCondition 16 s → ∃ v, parse_u16 s = Except.ok v) ∧
    ((∃ e, parse_u32 s = Except.error e) ↔ specErrorCondition 32 s) ∧
    (∀ e, parse_u32 s = Except.error e →
      ∃ k, e = ConfigError.NumberParseError (String.mk (get_base s.data).1) k) ∧
    (¬ specErrorCondition 32 s → ∃ v, parse_u32 s = Except.ok v) :=
  ⟨parseWidth_error_iff 16 s, parseWidth_error_form 16 s, parseWidth_isOk 16 s,
    parseWidth_error_iff 32 s, parseWidth_error_form 32 s, parseWidth_isOk 32 s⟩

/-- C4 witness: the error characterization applied at `"0x"` (empty digits,
hence the failure condition holds) and at `"123"` (condition fails, hence a
value is returned). -/
theorem C4_error_characterization_witness :
    specErrorCondition 16 "0x" ∧ (∃ v, parse_u16 "123" = Except.ok v) :=
  ⟨(C4_error_characterization "0x").1.mp
      ⟨ConfigError.NumberParseError "" ParseIntError.empty, by decide⟩,
    (C4_error_characterization "123").2.2.1 (by unfold specErrorCondition; decide)⟩

/-- C4 counterexample: the post-stripping digit string of `"+10"` contains
`+`, a character invalid for base 10, yet `parse_u32` succeeds — so "error if
the digits contain an invalid character" is false as stated. -/
theorem C4_plus_sign_counterexample :
    parse_u32 "+10" = Except.ok 10 ∧
    ((get_base "+10".data).1.any fun c =>
      (charToDigit c (get_base "+10".data).2).isNone) = true := by
  decide

/-- C8: `parse_u16 "0x10000"` fails with a positive overflow carried in a
`NumberParseError`, while `parse_u32 "0x10000"` succeeds with 65536. -/
theorem C8_width_overflow :
    parse_u16 "0x10000" =
      Except.error (ConfigError.NumberParseError "10000" ParseIntError.posOverflow) ∧
    parse_u32 "0x10000" = Except.ok 65536 := by
  decide

/-- C10: a leading `+` in the digit portion is accepted by the underlying
radix parse: `parse_u32 "+10" = 10` and `parse_u32 "0x+1A" = 26`. -/
theorem C10_plus_sign :
    parse_u32 "+10" = Except.ok 10 ∧ parse_u32 "0x+1A" = Except.ok 26 := by
  decide

/-- C5: in every successfully built configuration, the bridge kind is UART
exactly when the serial flag was supplied — whose raw string is recorded in
`serial_port` — and USB otherwise, whatever the other flags (baud or
operation flags included) were. -/
theorem C5_bridge_kind (m : ArgMatches) (cfg : Config) (h : Config.parse m = Except.ok cfg) :
    (cfg.bridge_kind = BridgeKind.UartBridge ↔ m.serial ≠ Option.none) ∧
    (cfg.bridge_kind = BridgeKind.UsbBridge ↔ m.serial = Option.none) ∧
    cfg.serial_port = m.serial := by
  obtain ⟨vid, pid, baud, addr, val, bport, sk, rl, ra, _, _, _, _, _, _, _, _, _, _, hcfg⟩ :=
    parse_ok_inv m cfg h
  subst hcfg
  cases hs : m.serial with
  | none => simp [bridgeKindOf, hs]
  | some p => simp [bridgeKindOf, hs]

/-- C5 witness: the invariant applied to a parse with `serial` supplied. -/
theorem C5_bridge_kind_witness :
    (({ usb_pid := Option.none, usb_vid := Option.none, memory_address := Option.some 16,
        memory_value := Option.none, server_kind := ServerKind.None,
        bridge_kind := BridgeKind.UartBridge, serial_port := Option.some "/dev/ttyUSB0",
        serial_baud := Option.none, bind_addr := "127.0.0.1", bind_port := 3333,
        random_loops := Option.none, random_address := Option.none : Config }).bridge_kind =
        BridgeKind.UartBridge ↔ Option.some "/dev/ttyUSB0" ≠ (Option.none : Option String)) ∧
    (({ usb_pid := Option.none, usb_vid := Option.none, memory_address := Option.some 16,
        memory_value := Option.none, server_kind := ServerKind.None,
        bridge_kind := BridgeKind.UartBridge, serial_port := Option.some "/dev/ttyUSB0",
        serial_baud := Option.none, bind_addr := "127.0.0.1", bind_port := 3333,
        random_loops := Option.none, random_address := Option.none : Config }).bridge_kind =
        BridgeKind.UsbBridge ↔ Option.some "/dev/ttyUSB0" = (Option.none : Option String)) ∧
    ({ usb_pid := Option.none, usb_vid := Option.none, memory_address := Option.some 16,
        memory_value := Option.none, server_kind := ServerKind.None,
        bridge_kind := BridgeKind.UartBridge, serial_port := Option.some "/dev/ttyUSB0",
        serial_baud := Option.none, bind_addr := "127.0.0.1", bind_port := 3333,
        random_loops := Option.none, random_address := Option.none : Config }).serial_port =
      Option.some "/dev/ttyUSB0" :=
  C5_bridge_kind
    { vid := Option.none, pid := Option.none, serial := Option.some "/dev/ttyUSB0",
      baud := Option.none, address := Option.some "0x10", value := Option.none,
      port := Option.none, bindAddr := Option.none, serverKind := Option.none,
      randomLoops := Option.none, randomAddress := Option.none }
    _ (by decide)

/-- C6: when every present flag parses successfully and the server kind
resolves, `Config::parse` fails with `NoOperationSpecified` exactly when the
address flag is absent and the server kind resolved to none; otherwise it
returns a configuration (and never a partial one on the error path). -/
theorem C6_no_operation (m : ArgMatches) (k : ServerKind)
    (hvid : ∀ s, m.vid = Option.some s → ∃ v, parse_u16 s = Except.ok v)
    (hpid : ∀ s, m.pid = Option.some s → ∃ v, parse_u16 s = Except.ok v)
    (hbaud : ∀ s, m.baud = Option.some s → ∃ v, parse_u32 s = Except.ok v)
    (haddr : ∀ s, m.address = Option.some s → ∃ v, parse_u32 s = Except.ok v)
    (hval : ∀ s, m.value = Option.some s → ∃ v, parse_u32 s = Except.ok v)
    (hport : ∀ s, m.port = Option.some s → ∃ v, parse_u32 s = Except.ok v)
    (hrl : ∀ s, m.randomLoops = Option.some s → ∃ v, parse_u32 s = Except.ok v)
    (hra : ∀ s, m.randomAddress = Option.some s → ∃ v, parse_u32 s = Except.ok v)
    (hsk : ServerKind.from_string m.serverKind = Except.ok k) :
    (Config.parse m = Except.error ConfigError.NoOperationSpecified ↔
      (m.address = Option.none ∧ k = ServerKind.None)) ∧
    (¬(m.address = Option.none ∧ k = ServerKind.None) →
      ∃ cfg, Config.parse m = Except.ok cfg) := by
  have hstep : ∀ (p : String → Except ConfigError Nat) (o : Option String),
      (∀ s, o = Option.some s → ∃ v, p s = Except.ok v) →
      ∃ x, parseOpt p o = Except.ok x := by
    intro p o hp
    cases o with
    | none => exact ⟨Option.none, rfl⟩
    | some s =>
      obtain ⟨v, hv⟩ := hp s rfl
      exact ⟨Option.some v, by simp [parseOpt, hv]⟩
  obtain ⟨vid, h1⟩ := hstep parse_u16 m.vid hvid
  obtain ⟨pid, h2⟩ := hstep parse_u16 m.pid hpid
  obtain ⟨baud, h3⟩ := hstep parse_u32 m.baud hbaud
  obtain ⟨addr, h4⟩ := hstep parse_u32 m.address haddr
  obtain ⟨val, h5⟩ := hstep parse_u32 m.value hval
  obtain ⟨bport, h6⟩ : ∃ x, parseDefault 3333 m.port = Except.ok x := by
    cases hp : m.port with
    | none => exact ⟨3333, rfl⟩
    | some s =>
      obtain ⟨v, hv⟩ := hport s hp
      exact ⟨v, by simp [parseDefault, hv]⟩
  obtain ⟨rl, h8⟩ := hstep parse_u32 m.randomLoops hrl
  obtain ⟨ra, h9⟩ := hstep parse_u32 m.randomAddress hra
  have hall := parse_steps m vid pid baud addr val bport k rl ra h1 h2 h3 h4 h5 h6 hsk h8 h9
  have haddr_iff := parseOpt_none_iff parse_u32 m.address addr h4
  constructor
  · constructor
    · intro hp
      by_cases hc : addr = Option.none ∧ k = ServerKind.None
      · exact ⟨haddr_iff.mp hc.1, hc.2⟩
      · rw [hall, if_neg hc] at hp
        cases hp
    · intro hc
      rw [hall, if_pos ⟨haddr_iff.mpr hc.1, hc.2⟩]
  · intro hc
    rw [hall, if_neg (fun hcon => hc ⟨haddr_iff.mp hcon.1, hcon.2⟩)]
    exact ⟨_, rfl⟩

/-- C6 witness: the validation applied with only `server-kind` = `"gdb"`. -/
theorem C6_no_operation_witness :
    (Config.parse
        { vid := Option.none, pid := Option.none, serial := Option.none,
          baud := Option.none, address := Option.none, value := Option.none,
          port := Option.none, bindAddr := Option.none, serverKind := Option.some "gdb",
          randomLoops := Option.none, randomAddress := Option.none } =
        Except.error ConfigError.NoOperationSpecified ↔
      ((Option.none : Option String) = Option.none ∧ ServerKind.GDB = ServerKind.None)) ∧
    (¬((Option.none : Option String) = Option.none ∧ ServerKind.GDB = ServerKind.None) →
      ∃ cfg, Config.parse
        { vid := Option.none, pid := Option.none, serial := Option.none,
          baud := Option.none, address := Option.none, value := Option.none,
          port := Option.none, bindAddr := Option.none, serverKind := Option.some "gdb",
          randomLoops := Option.none, randomAddress := Option.none } = Except.ok cfg) :=
  C6_no_operation
    { vid := Option.none, pid := Option.none, serial := Option.none,
      baud := Option.none, address := Option.none, value := Option.none,
      port := Option.none, bindAddr := Option.none, serverKind := Option.some "gdb",
      randomLoops := Option.none, randomAddress := Option.none }
    ServerKind.GDB
    (fun s hs => nomatch hs) (fun s hs => nomatch hs) (fun s hs => nomatch hs)
    (fun s hs => nomatch hs) (fun s hs => nomatch hs) (fun s hs => nomatch hs)
    (fun s hs => nomatch hs) (fun s hs => nomatch hs) (by decide)

/-- C7 (amended): `Config::parse` is fail-fast over its fallible extraction
steps in source order — vid, pid, baud, address, value, port, server-kind,
random-loops, random-address: whenever some step fails, the error returned is
that of the first failing step, and no configuration is constructed. -/
theorem C7_fail_fast (m : ArgMatches) (e : ConfigError)
    (h : firstError (extractionSteps m) = Option.some e) :
    Config.parse m = Except.error e := by
  unfold extractionSteps at h
  cases h1 : parseOpt parse_u16 m.vid with
  | error e1 =>
    rw [h1] at h
    simp only [Except.map, firstError, Option.some.injEq] at h
    subst h
    unfold Config.parse
    rw [h1]
  | ok v1 =>
  rw [h1] at h
  simp only [Except.map, firstError] at h
  cases h2 : parseOpt parse_u16 m.pid with
  | error e2 =>
    rw [h2] at h
    simp only [Except.map, firstError, Option.some.injEq] at h
    subst h
    unfold Config.parse
    rw [h1, h2]
  | ok v2 =>
  rw [h2] at h
  simp only [Except.map, firstError] at h
  cases h3 : parseOpt parse_u32 m.baud with
  | error e3 =>
    rw [h3] at h
    simp only [Except.map, firstError, Option.some.injEq] at h
    subst h
    unfold Config.parse
    rw [h1, h2, h3]
  | ok v3 =>
  rw [h3] at h
  simp only [Except.map, firstError] at h
  cases h4 : parseOpt parse_u32 m.address with
  | error e4 =>
    rw [h4] at h
    simp only [Except.map, firstError, Option.some.injEq] at h
    subst h
    unfold Config.parse
    rw [h1, h2, h3, h4]
  | ok v4 =>
  rw [h4] at h
  simp only [Except.map, firstError] at h
  cases h5 : parseOpt parse_u32 m.value with
  | error e5 =>
    rw [h5] at h
    simp only [Except.map, firstError, Option.some.injEq] at h
    subst h
    unfold Config.parse
    rw [h1, h2, h3, h4, h5]
  | ok v5 =>
  rw [h5] at h
  simp only [Except.map, firstError] at h
  cases h6 : parseDefault 3333 m.port with
  | error e6 =>
    rw [h6] at h
    simp only [Except.map, firstError, Option.some.injEq] at h
    subst h
    unfold Config.parse
    rw [h1, h2, h3, h4, h5, h6]
  | ok v6 =>
  rw [h6] at h
  simp only [Except.map, firstError] at h
  cases h7 : ServerKind.from_string m.serverKind with
  | error e7 =>
    rw [h7] at h
    simp only [Except.map, firstError, Option.some.injEq] at h
    subst h
    unfold Config.parse
    rw [h1, h2, h3, h4, h5, h6, h7]
  | ok v7 =>
  rw [h7] at h
  simp only [Except.map, firstError] at h
  cases h8 : parseOpt parse_u32 m.randomLoops with
  | error e8 =>
    rw [h8] at h
    simp only [Except.map, firstError, Option.some.injEq] at h
    subst h
    unfold Config.parse
    rw [h1, h2, h3, h4, h5, h6, h7, h8]
  | ok v8 =>
  rw [h8] at h
  simp only [Except.map, firstError] at h
  cases h9 : parseOpt parse_u32 m.randomAddress with
  | error e9 =>
    rw [h9] at h
    simp only [Except.map, firstError, Option.some.injEq] at h
    subst h
    unfold Config.parse
    rw [h1, h2, h3, h4, h5, h6, h7, h8, h9]
  | ok v9 =>
  rw [h9] at h
  simp only [Except.map, firstError] at h
  exact Option.noConfusion h

/-- C7 witness: fail-fast applied with a malformed `vid` flag. -/
theorem C7_fail_fast_witness :
    Config.parse
      { vid := Option.some "zz", pid := Option.none, serial := Option.none,
        baud := Option.none, address := Option.none, value := Option.none,
        port := Option.none, bindAddr := Option.none, serverKind := Option.none,
        randomLoops := Option.none, randomAddress := Option.none } =
      Except.error (ConfigError.NumberParseError "zz" ParseIntError.invalidDigit) :=
  C7_fail_fast _ _ (by decide)

/-- C7 counterexample: with `server-kind` = `"bogus"` and `random-loops` =
`"zz"`, the first (and only) malformed numeric flag is `random-loops`, whose
parse error is a `NumberParseError` on `"zz"`; but `Config::parse` returns
the earlier `UnknownServerKind` error instead. -/
theorem C7_first_numeric_counterexample :
    parse_u32 "zz" =
      Except.error (ConfigError.NumberParseError "zz" ParseIntError.invalidDigit) ∧
    Config.parse
      { vid := Option.none, pid := Option.none, serial := Option.none, baud := Option.none,
        address := Option.none, value := Option.none, port := Option.none,
        bindAddr := Option.none, serverKind := Option.some "bogus",
        randomLoops := Option.some "zz", randomAddress := Option.none } =
      Except.error (ConfigError.UnknownServerKind "bogus") ∧
    ConfigError.UnknownServerKind "bogus" ≠
      ConfigError.NumberParseError "zz" ParseIntError.invalidDigit := by
  decide

/-- C9: a configuration built with only a (parseable) `address` flag
succeeds, with the defaults `bind_addr = "127.0.0.1"` and `bind_port = 3333`
and the parsed address recorded. -/
theorem C9_defaults (a : String) (v : Nat) (h : parse_u32 a = Except.ok v) :
    ∃ cfg,
      Config.parse
        { vid := Option.none, pid := Option.none, serial := Option.none,
          baud := Option.none, address := Option.some a, value := Option.none,
          port := Option.none, bindAddr := Option.none, serverKind := Option.none,
          randomLoops := Option.none, randomAddress := Option.none } = Except.ok cfg ∧
      cfg.bind_addr = "127.0.0.1" ∧ cfg.bind_port = 3333 ∧
      cfg.memory_address = Option.some v := by
  have h4 : parseOpt parse_u32 (Option.some a) = Except.ok (Option.some v) := by
    simp [parseOpt, h]
  have hall := parse_steps
    { vid := Option.none, pid := Option.none, serial := Option.none,
      baud := Option.none, address := Option.some a, value := Option.none,
      port := Option.none, bindAddr := Option.none, serverKind := Option.none,
      randomLoops := Option.none, randomAddress := Option.none }
    Option.none Option.none Option.none (Option.some v) Option.none 3333 ServerKind.None
    Option.none Option.none rfl rfl rfl h4 rfl rfl rfl rfl rfl
  rw [if_neg (by simp)] at hall
  exact ⟨_, hall, rfl, rfl, rfl⟩

/-- C9 witness: the defaults theorem applied at address `"0x1000"`. -/
theorem C9_defaults_witness :
    ∃ cfg,
      Config.parse
        { vid := Option.none, pid := Option.none, serial := Option.none,
          baud := Option.none, address := Option.some "0x1000", value := Option.none,
          port := Option.none, bindAddr := Option.none, serverKind := Option.none,
          randomLoops := Option.none, randomAddress := Option.none } = Except.ok cfg ∧
      cfg.bind_addr = "127.0.0.1" ∧ cfg.bind_port = 3333 ∧
      cfg.memory_address = Option.some 4096 :=
  C9_defaults "0x1000" 4096 (by decide)

end Wishbone
